import Mathlib

/-!
Verification of the SHFS administration tool (`src/shfs-tools/shfs_admin.c`)
against its natural-language specification.

The development shallowly embeds the mounted-volume state and the object
actions of `shfs_admin.c`.  The allocator (`shfs_alloc.c`) and the bucket
table (`shfs_btable.c`) are not part of the source tree; their operations
are modelled from the specification (sections 4.3 and 4.4), as marked on
each definition.  Machine integers are modelled as `Nat`; the `int` return
codes of the actions are modelled as `Int` (0 success, -1 error, -2 cancel).
-/

/-- DIV_ROUND_UP from the C sources: ceiling division on naturals. -/
def DIV_ROUND_UP (x d : Nat) : Nat := (x + d - 1) / d

/-- Volume configuration fields of `struct vol_info` that the actions read
(`chunksize`, `volsize`, hash-table geometry).  `hlen`, the member table and
the allocator tag do not influence any claim and are omitted. -/
structure VolCfg where
  chunksize : Nat
  volsize : Nat
  htable_nb_buckets : Nat
  htable_nb_entries_per_bucket : Nat
  htable_nb_entries_per_chunk : Nat
  htable_len : Nat
  htable_ref : Nat
  htable_bak_ref : Nat
deriving DecidableEq

/-- On-disk hash-table entry (`struct shfs_hentry`), restricted to the fields
the claims mention.  The digest is modelled as a `Nat`; the all-zero digest
(empty slot) is `0`.  `mime`, `name`, `encoding` and `ts_creation` are set by
`actn_addfile` in the source but no claim depends on them, so they are
omitted. -/
structure Hentry where
  hash : Nat
  chunk : Nat
  offset : Nat
  len : Nat
  flags : Nat
deriving DecidableEq

instance : Inhabited Hentry := ⟨{ hash := 0, chunk := 0, offset := 0, len := 0, flags := 0 }⟩

/-- Modelled from the spec: `flags` bit `DEFAULT` of a hash-table entry
(`SHFS_EFLAG_DEFAULT`; `shfs_defs.h` is not in the source tree).  Modelled as
bit 0 of the flags byte. -/
def SHFS_EFLAG_DEFAULT : Nat := 1

/-- Modelled from the spec: `flags` bit `HIDDEN` of a hash-table entry
(`SHFS_EFLAG_HIDDEN`).  Modelled as bit 1 of the flags byte. -/
def SHFS_EFLAG_HIDDEN : Nat := 2

/-- Occupancy map of the allocator: `al i = true` iff chunk `i` is
registered.  Modelled from the spec: the allocator (`shfs_alloc.c` is not in
the source tree) maintains an ordered set of non-overlapping occupied chunk
ranges inside `[0, volsize+1)`; an occupancy predicate on chunk numbers is
an equivalent representation. -/
def AllocMap : Type := Nat → Bool

/-- All chunks of `[s, s+l)` are free in `al`. -/
def rangeFree (al : AllocMap) (s l : Nat) : Bool :=
  (List.range l).all fun i => !(al (s + i))

/-- All chunks of `[s, s+l)` are occupied in `al`. -/
def rangeOcc (al : AllocMap) (s l : Nat) : Bool :=
  (List.range l).all fun i => al (s + i)

/-- Set the occupancy of every chunk of `[s, s+l)` to `v`. -/
def markRange (al : AllocMap) (s l : Nat) (v : Bool) : AllocMap :=
  fun i => if s ≤ i ∧ i < s + l then v else al i

/-- Modelled from the spec: `shfs_alist_register` (spec 4.4): inserts
`[start, start+length)`; fails if it overlaps an existing occupied range or
leaves `[0, volsize+1)`. -/
def alist_register (cfg : VolCfg) (al : AllocMap) (s l : Nat) : Option AllocMap :=
  if s + l ≤ cfg.volsize + 1 ∧ rangeFree al s l = true then
    some (markRange al s l true)
  else
    none

/-- Modelled from the spec: `shfs_alist_unregister` (spec 4.4): removes
`[start, start+length)`; fails if the range is not fully occupied. -/
def alist_unregister (cfg : VolCfg) (al : AllocMap) (s l : Nat) : Option AllocMap :=
  if s + l ≤ cfg.volsize + 1 ∧ rangeOcc al s l = true then
    some (markRange al s l false)
  else
    none

/-- Modelled from the spec: `shfs_alist_find_free` (spec 4.4, FIRST policy):
the lowest start of a free gap of the requested length lying entirely in
`[2, volsize+1)`; `0` when the length is `0` or no such gap exists. -/
def alist_find_free (cfg : VolCfg) (al : AllocMap) (l : Nat) : Nat :=
  if l = 0 then 0
  else
    ((List.range (cfg.volsize + 2)).filter fun s =>
      decide (2 ≤ s) && decide (s + l ≤ cfg.volsize + 1) && rangeFree al s l).headD 0

/-- Modelled from the spec: the bucket of a digest (spec 4.3 and 9): the
leading bits of the digest reduced modulo the number of buckets; modelled as
the digest value modulo `nb_buckets`.  No claim depends on the exact
bit-level formula. -/
def bucketOfDigest (nbBuckets h : Nat) : Nat := h % nbBuckets

/-- The hash-table slot indices belonging to the bucket of digest `h`
(spec 6: the bucket of on-disk entry `i` is `i / entries_per_bucket`). -/
def bucketSlots (cfg : VolCfg) (h : Nat) : List Nat :=
  (List.range cfg.htable_nb_entries_per_bucket).map fun s =>
    bucketOfDigest cfg.htable_nb_buckets h * cfg.htable_nb_entries_per_bucket + s

/-- Modelled from the spec: `shfs_btable_lookup` (spec 4.3; `shfs_btable.h`
is not in the source tree): linear search of the digest's bucket for a slot
holding the full digest.  The bucket table is collapsed onto the hash-table
entry array: a bentry's digest and its on-disk entry's digest are kept equal
by every operation, so the slot index identifies both. -/
def btable_lookup (cfg : VolCfg) (entries : List Hentry) (h : Nat) : Option Nat :=
  (bucketSlots cfg h).find? fun i => (entries.getD i default).hash == h

/-- Modelled from the spec: `shfs_btable_addentry` (spec 4.3): first empty
slot (all-zero digest) of the digest's bucket; `none` when the bucket is
saturated. -/
def btable_addentry (cfg : VolCfg) (entries : List Hentry) (h : Nat) : Option Nat :=
  (bucketSlots cfg h).find? fun i => (entries.getD i default).hash == 0

/-- In-memory state of a mounted volume that the object actions mutate:
the hash-table entries held in the chunk cache (`htable_chunk_cache`), the
per-chunk MODIFIED bits (`htable_chunk_cache_state` and `CCS_MODIFIED`), the
allocator (`al`) and the cached default entry (`def_bentry`, as a slot
index). -/
structure VolState where
  entries : List Hentry
  cstate : List Bool
  alloc : AllocMap
  def_bentry : Option Nat

/-- The points at which one execution of `actn_addfile` can be interrupted
from outside: I/O errors on the source file or the volume, allocation
failures, and observations of the asynchronous `cancel` flag.  `ok` is the
run without any external failure.  Duplicate digests and saturated buckets
are not fates: they are computed from the state. -/
inductive AddFate where
  | ok
  | earlyFail
  | tmpAllocFail
  | hashInitFail
  | seek1Fail
  | hashReadFail (c : Nat)
  | hashCancel (c : Nat)
  | seek2Fail
  | copyWriteFail (k : Nat)
  | copyCancel (k : Nat)
deriving DecidableEq

/-- Outcome of the hashing loop of `actn_addfile` (lines 676-693): it runs
`csize` iterations; a read error at iteration `c` exits with `-1`
(`err_mhash_deinit`), an observed cancel exits with `-2`; both paths release
the container. -/
def hashLoopAbort (fate : AddFate) (csize : Nat) : Option Int :=
  match fate with
  | .hashReadFail c => if c < csize then some (-1) else none
  | .hashCancel c => if c < csize then some (-2) else none
  | _ => none

/-- Outcome of the content-copy loop of `actn_addfile` (lines 747-778): it
runs `csize` iterations (one per chunk of the container); a read or write
error at iteration `k` exits with `-1`, an observed cancel with `-2`; both
paths go through `err_free_tmp_chk` and release the container. -/
def copyLoopAbort (fate : AddFate) (csize : Nat) : Option Int :=
  match fate with
  | .copyWriteFail k => if k < csize then some (-1) else none
  | .copyCancel k => if k < csize then some (-2) else none
  | _ => none

/-- `actn_addfile` (shfs_admin.c lines 605-796) as a state transformer on the
mounted volume, returning the C `int` result and the new state.  The byte
streams (digest input and chunk payloads, whose byte-level behaviour is
covered by `addfile_chunks` and `addfile_hash_lens`) do not affect the
volume state and are elided; the digest of the file is the parameter
`fhash`.  The `shfs_alist_register` return value is ignored exactly as in
the source (line 653), and each error path performs the cleanup of its
`goto` chain: paths reaching `err_release_container` call
`shfs_alist_unregister(cchk, csize)`, also with its return value ignored
(line 791). -/
def actn_addfile (cfg : VolCfg) (st : VolState) (fsize fhash : Nat) (fate : AddFate) :
    Int × VolState :=
  if fate = .earlyFail then (-1, st)
  else
    let csize := DIV_ROUND_UP fsize cfg.chunksize
    let cchk := alist_find_free cfg st.alloc csize
    if cchk = 0 ∨ cfg.volsize ≤ cchk then (-1, st)
    else
      let al1 := (alist_register cfg st.alloc cchk csize).getD st.alloc
      let alRel := (alist_unregister cfg al1 cchk csize).getD al1
      if fate = .tmpAllocFail ∨ fate = .hashInitFail ∨ fate = .seek1Fail then
        (-1, { st with alloc := alRel })
      else
        match hashLoopAbort fate csize with
        | some rc => (rc, { st with alloc := alRel })
        | none =>
          match btable_lookup cfg st.entries fhash with
          | some _ => (-1, { st with alloc := alRel })
          | none =>
            match btable_addentry cfg st.entries fhash with
            | none => (-1, { st with alloc := alRel })
            | some slot =>
              let he : Hentry :=
                { hash := fhash, chunk := cchk, offset := 0, len := fsize, flags := 0 }
              let ents := st.entries.set slot he
              let ccs := st.cstate.set (slot / cfg.htable_nb_entries_per_chunk) true
              if fate = .seek2Fail then
                (-1, { st with entries := ents, cstate := ccs, alloc := alRel })
              else
                match copyLoopAbort fate csize with
                | some rc => (rc, { st with entries := ents, cstate := ccs, alloc := alRel })
                | none => (0, { st with entries := ents, cstate := ccs, alloc := al1 })

/-- `actn_rmfile` (shfs_admin.c lines 798-843).  The digest argument is
`none` when `hash_parse` rejects the string.  On success the container is
unregistered first; only then is the on-disk digest cleared (`hash_clear`
touches only the digest: `chunk`, `offset`, `len` and `flags` keep their
values), the bucket entry removed, and the chunk marked MODIFIED.
`def_bentry` is never touched. -/
def actn_rmfile (cfg : VolCfg) (st : VolState) (h : Option Nat) : Int × VolState :=
  match h with
  | none => (-1, st)
  | some hv =>
    match btable_lookup cfg st.entries hv with
    | none => (-1, st)
    | some slot =>
      let he := st.entries.getD slot default
      match alist_unregister cfg st.alloc he.chunk
          (DIV_ROUND_UP (he.len + he.offset) cfg.chunksize) with
      | none => (-1, st)
      | some al1 =>
        (0, { st with
              alloc := al1,
              entries := st.entries.set slot { he with hash := 0 },
              cstate := st.cstate.set (slot / cfg.htable_nb_entries_per_chunk) true })

/-- `actn_cleardefault` (shfs_admin.c lines 944-954): when a default entry is
cached, clear its DEFAULT flag (`bentry_clearflags`), mark its hash-table
chunk MODIFIED and drop the reference; otherwise do nothing.  Always returns
0. -/
def actn_cleardefault (cfg : VolCfg) (st : VolState) : Int × VolState :=
  match st.def_bentry with
  | none => (0, st)
  | some d =>
    let he := st.entries.getD d default
    (0, { st with
          entries := st.entries.set d { he with flags := he.flags - he.flags % 2 },
          cstate := st.cstate.set (d / cfg.htable_nb_entries_per_chunk) true,
          def_bentry := none })

/-- `actn_setdefault` (shfs_admin.c lines 956-985).  The digest argument is
`none` when `hash_parse` rejects the string.  After a successful lookup it
first runs `actn_cleardefault`, then sets the DEFAULT flag on the target
(`bentry_setflags`), marks its chunk MODIFIED and caches the reference. -/
def actn_setdefault (cfg : VolCfg) (st : VolState) (h : Option Nat) : Int × VolState :=
  match h with
  | none => (-1, st)
  | some hv =>
    match btable_lookup cfg st.entries hv with
    | none => (-1, st)
    | some slot =>
      let st1 := (actn_cleardefault cfg st).2
      let he := st1.entries.getD slot default
      (0, { st1 with
            entries := st1.entries.set slot { he with flags := he.flags ||| SHFS_EFLAG_DEFAULT },
            cstate := st1.cstate.set (slot / cfg.htable_nb_entries_per_chunk) true,
            def_bentry := some slot })

/-- The lengths of the blocks that the hashing loop of `actn_addfile`
(shfs_admin.c lines 676-693) reads from the file and feeds to `mhash`:
`csize = DIV_ROUND_UP(fsize, chunksize)` iterations; iteration `c` uses
`rlen = fsize % chunksize` when `c == csize - 1` and `rlen = chunksize`
otherwise. -/
def addfile_hash_lens (chunksize fsize : Nat) : List Nat :=
  let csize := DIV_ROUND_UP fsize chunksize
  (List.range csize).map fun c =>
    if c = csize - 1 then fsize % chunksize else chunksize

/-- The chunk images that the content-copy loop of `actn_addfile`
(shfs_admin.c lines 747-778) writes to the container, as functions of the
file bytes: full `chunksize`-byte slices while more than a chunk is left;
the final block is the remaining bytes zero-padded to `chunksize` (the
buffer is `memset` to zero before the final partial read).  The C loop
terminates only for `chunksize > 0` (every mounted volume has
`chunksize ≥ 4096`); `chunksize = 0` is mapped to no iterations. -/
def addfile_chunks (chunksize : Nat) (data : List Nat) : List (List Nat) :=
  if data.isEmpty then []
  else if h0 : chunksize = 0 then []
  else if h1 : chunksize < data.length then
    data.take chunksize :: addfile_chunks chunksize (data.drop chunksize)
  else
    [data ++ List.replicate (chunksize - data.length) 0]
termination_by data.length
decreasing_by simp [List.length_drop]; omega

/-- The byte stream that `actn_catfile` (shfs_admin.c lines 884-908) writes
to stdout, given the sequence of chunk images it reads starting at
`hentry.chunk`: while `left` bytes remain, emit
`min(chunksize - off, left)` bytes of the current chunk starting at `off`
(`hentry.offset` for the first chunk, `0` afterwards). -/
def catfile_bytes (chunksize : Nat) : List (List Nat) → Nat → Nat → List Nat
  | _, _, 0 => []
  | [], _, _ => []
  | b :: bs, off, left =>
    let rlen := min (chunksize - off) left
    (b.drop off).take rlen ++ catfile_bytes chunksize bs 0 (left - rlen)

/-- One write-back issued by `umount_shfs`: hash-table chunk `i` written to
the primary region (`htable_ref + i`) or to the backup region
(`htable_bak_ref + i`). -/
inductive WriteEvt where
  | prim (i : Nat)
  | bak (i : Nat)
deriving DecidableEq

/-- The write-backs issued for one hash-table chunk by the body of the
`umount_shfs` loop (shfs_admin.c lines 572-592): nothing when the chunk's
MODIFIED bit is clear; otherwise the primary write followed immediately by
the backup write when `htable_bak_ref != 0`. -/
def flushChunk (useBak modified : Bool) (i : Nat) : List WriteEvt :=
  if modified then WriteEvt.prim i :: (if useBak then [WriteEvt.bak i] else []) else []

/-- The full sequence of write-backs issued by `umount_shfs`
(shfs_admin.c lines 567-598): chunks `0, 1, ..., htable_len - 1` in
ascending order, each contributing `flushChunk`. -/
def umount_writes (htlen : Nat) (useBak : Bool) (cs : List Bool) : List WriteEvt :=
  ((List.range htlen).map fun i => flushChunk useBak (cs.getD i false) i).flatten

/-- An event is a primary-region write-back. -/
def isPrimEvt : WriteEvt → Bool
  | .prim _ => true
  | .bak _ => false

/-- The ordering stated by the spec for `umount_shfs`: every primary-region
write-back precedes every backup-region write-back, i.e. after the leading
primary writes no primary write occurs. -/
def primsPrecedeBaks (evs : List WriteEvt) : Bool :=
  (evs.dropWhile isPrimEvt).all fun e => !(isPrimEvt e)

/-- The token loop of `main` (shfs_admin.c lines 1144-1187) over the list of
the actions' return values.  The second argument is the cancel schedule:
`some k` means the `cancel` flag is first seen raised at the top-of-loop
check of iteration `k` (`k ≥` the number of tokens when it is raised only
after the loop); `none` means it is never raised.  Returns the `failed`
counter and the number of tokens executed. -/
def driverLoop : List Int → Option Nat → Nat × Nat
  | [], _ => (0, 0)
  | _ :: _, some 0 => (0, 0)
  | r :: rs, some (k + 1) =>
    let p := driverLoop rs (some k)
    (p.1 + (if r < 0 then 1 else 0), p.2 + 1)
  | r :: rs, none =>
    let p := driverLoop rs none
    (p.1 + (if r < 0 then 1 else 0), p.2 + 1)

/-- The process result computed at the end of `main` (shfs_admin.c lines
1191-1201): the distinguished cancel code `-2` when the cancel flag was
raised, else failure `1` (EXIT_FAILURE) when any executed token failed, else
`0` (EXIT_SUCCESS). -/
def driverRet (rets : List Int) (c : Option Nat) : Int :=
  if c.isSome then -2
  else if (driverLoop rets c).1 ≠ 0 then 1 else 0

/-- Spec 3 invariant: every non-empty hash-table entry `e` has the chunk
range `[e.chunk, e.chunk + DIV_ROUND_UP(e.offset + e.len, chunksize))`
registered in the allocator. -/
def alloc_invariant (cfg : VolCfg) (st : VolState) : Bool :=
  (List.range st.entries.length).all fun i =>
    let he := st.entries.getD i default
    he.hash == 0 || rangeOcc st.alloc he.chunk (DIV_ROUND_UP (he.offset + he.len) cfg.chunksize)

/-- Spec 3 invariant on the default object: at most one hash-table entry has
the DEFAULT flag set, and `def_bentry` references exactly that entry when
one exists and is absent otherwise. -/
def default_invariant (st : VolState) : Bool :=
  let flagged := (List.range st.entries.length).filter fun i =>
    (st.entries.getD i default).flags % 2 == 1
  match st.def_bentry, flagged with
  | none, [] => true
  | some d, [i] => d == i
  | _, _ => false

/-- A one-slot example volume used for concrete executions: one bucket of
one entry, one hash-table chunk at chunk 2, no backup region,
`chunksize = 16`, `volsize = 9`. -/
def exCfg : VolCfg :=
  { chunksize := 16, volsize := 9, htable_nb_buckets := 1,
    htable_nb_entries_per_bucket := 1, htable_nb_entries_per_chunk := 1,
    htable_len := 1, htable_ref := 2, htable_bak_ref := 0 }

/-- The freshly mounted state of the example volume: an empty hash table,
a clean chunk cache, the label region `[0, 2)` and the hash-table region
`[2, 3)` registered, no default entry. -/
def exState : VolState :=
  { entries := [default], cstate := [false],
    alloc := fun i => decide (i < 3), def_bentry := none }

/-- Claim C1: in every state reachable by object actions, the chunk range of
every non-empty hash-table entry is registered in the allocator, and in
particular every exit path of add preserves this.  The code violates this:
cancelling `actn_addfile` during the content-copy phase (which runs after
the hash-table entry has been populated) unregisters the container through
the shared `goto` cleanup chain while the populated entry remains, leaving a
non-empty entry whose range is not registered.  Concretely, on the example
volume, adding a 1-byte file with digest 5 and a cancel at the first copy
iteration returns the cancel code `-2`, and the invariant, true before the
add, is false afterwards. -/
theorem c1_invariant_broken :
    alloc_invariant exCfg exState = true ∧
    (actn_addfile exCfg exState 1 5 (AddFate.copyCancel 0)).1 = -2 ∧
    alloc_invariant exCfg (actn_addfile exCfg exState 1 5 (AddFate.copyCancel 0)).2 = false := by
  decide

/-- Claim C3: the hashing loop of `actn_addfile` is claimed to feed the
digest primitive blocks whose lengths sum to `fsize`, including when `fsize`
is an exact multiple of `chunksize`.  The code computes the final block
length as `fsize % chunksize`, which is `0` in exactly that case: for
`fsize = chunksize = 4096` the loop feeds a single block of length `0`, so
the digest covers none of the 4096 file bytes. -/
theorem c3_hash_lens_bug :
    addfile_hash_lens 4096 4096 = [0] ∧ (addfile_hash_lens 4096 4096).sum ≠ 4096 := by
  decide

/-- Claim C4 (counterexample): the claim states that add of a zero-byte
regular file succeeds.  On the example volume, `actn_addfile` with
`fsize = 0` and no external failure returns `-1`, not success:
`find_free(0)` returns `0` and the `cchk == 0` check treats it as
no-space. -/
theorem c4_counterexample :
    (actn_addfile exCfg exState 0 5 AddFate.ok).1 = -1 := by
  decide

/-- Claim C5 (counterexample): the claim states that a cancel during the
streaming phases of add leaves the allocator, the bucket table and the
hash-table chunk cache unchanged.  A cancel during the content-copy loop
returns the cancel code `-2` but leaves the freshly committed hash-table
entry in place (and its chunk marked MODIFIED): the entry array differs
from the pre-add state. -/
theorem c5_counterexample :
    (actn_addfile exCfg exState 1 5 (AddFate.copyCancel 0)).1 = -2 ∧
    (actn_addfile exCfg exState 1 5 (AddFate.copyCancel 0)).2.entries ≠ exState.entries ∧
    (actn_addfile exCfg exState 1 5 (AddFate.copyCancel 0)).2.cstate ≠ exState.cstate := by
  decide

/-- Claim C7 (counterexample): the claim states that during unmount all
primary-region write-backs precede all backup-region write-backs.  With two
MODIFIED hash-table chunks and a backup region, `umount_shfs` emits
`[prim 0, bak 0, prim 1, bak 1]`: the backup write of chunk 0 precedes the
primary write of chunk 1, so the sequence is not all-primary-then-all-backup. -/
theorem c7_counterexample :
    umount_writes 2 true [true, true] =
      [WriteEvt.prim 0, WriteEvt.bak 0, WriteEvt.prim 1, WriteEvt.bak 1] ∧
    primsPrecedeBaks (umount_writes 2 true [true, true]) = false := by
  decide

/-- State of the example volume after adding a 1-byte file with digest 5. -/
def c8_st1 : VolState := (actn_addfile exCfg exState 1 5 AddFate.ok).2

/-- State after then making digest 5 the default object. -/
def c8_st2 : VolState := (actn_setdefault exCfg c8_st1 (some 5)).2

/-- State after then removing digest 5 (the current default). -/
def c8_st3 : VolState := (actn_rmfile exCfg c8_st2 (some 5)).2

/-- State after then adding a 1-byte file with digest 7, which reuses the
freed slot. -/
def c8_st4 : VolState := (actn_addfile exCfg c8_st3 1 7 AddFate.ok).2

/-- Claim C8: at most one hash-table entry has the DEFAULT flag set and
`def_bentry` points to exactly that entry when one exists and is absent
otherwise, in every reachable state.  The code violates this:
`actn_rmfile` neither clears `def_bentry` nor the removed entry's DEFAULT
flag.  On the example volume the successful sequence add(5); set-default(5);
remove(5); add(7) reaches a state where no entry has the DEFAULT flag (the
reused slot was rewritten with flags 0) yet `def_bentry` still references
slot 0; the removed-but-flagged intermediate state `c8_st3` also keeps the
DEFAULT bit set on an empty entry and `def_bentry` pointing at it. -/
theorem c8_default_broken :
    (actn_addfile exCfg exState 1 5 AddFate.ok).1 = 0 ∧
    (actn_setdefault exCfg c8_st1 (some 5)).1 = 0 ∧
    (actn_rmfile exCfg c8_st2 (some 5)).1 = 0 ∧
    (actn_addfile exCfg c8_st3 1 7 AddFate.ok).1 = 0 ∧
    default_invariant c8_st2 = true ∧
    c8_st3.def_bentry = some 0 ∧ (c8_st3.entries.getD 0 default).hash = 0 ∧
    (c8_st3.entries.getD 0 default).flags = SHFS_EFLAG_DEFAULT ∧
    default_invariant c8_st4 = false := by
  decide

theorem rangeFree_eq_false (al : AllocMap) (s l i : Nat) (h : rangeFree al s l = true)
    (h1 : s ≤ i) (h2 : i < s + l) : al i = false := by
  unfold rangeFree at h
  rw [List.all_eq_true] at h
  have hm : i - s ∈ List.range l := List.mem_range.mpr (by omega)
  have := h (i - s) hm
  simp only [Bool.not_eq_eq_eq_not, Bool.not_true] at this
  have he : s + (i - s) = i := by omega
  rwa [he] at this

theorem mark_unmark (al : AllocMap) (s l : Nat) (h : rangeFree al s l = true) :
    markRange (markRange al s l true) s l false = al := by
  funext i
  unfold markRange
  by_cases hi : s ≤ i ∧ i < s + l
  · rw [if_pos hi]
    exact (rangeFree_eq_false al s l i h hi.1 hi.2).symm
  · rw [if_neg hi, if_neg hi]

theorem rangeOcc_mark_true (al : AllocMap) (s l : Nat) :
    rangeOcc (markRange al s l true) s l = true := by
  unfold rangeOcc markRange
  rw [List.all_eq_true]
  intro i hi
  rw [List.mem_range] at hi
  rw [if_pos ⟨Nat.le_add_right s i, by omega⟩]

/-- Releasing a container right after reserving it (the `goto` cleanup chain
of `actn_addfile`) restores the allocator exactly, provided the reserved
range was free — which `alist_find_free` guarantees. -/
theorem release_of_register (cfg : VolCfg) (al : AllocMap) (s l : Nat)
    (hfree : rangeFree al s l = true) (hb : s + l ≤ cfg.volsize + 1) :
    (alist_unregister cfg ((alist_register cfg al s l).getD al) s l).getD
      ((alist_register cfg al s l).getD al) = al := by
  have hr : alist_register cfg al s l = some (markRange al s l true) := by
    unfold alist_register
    rw [if_pos ⟨hb, hfree⟩]
  rw [hr]
  simp only [Option.getD_some]
  have hu : alist_unregister cfg (markRange al s l true) s l =
      some (markRange (markRange al s l true) s l false) := by
    unfold alist_unregister
    rw [if_pos ⟨hb, rangeOcc_mark_true al s l⟩]
  rw [hu, Option.getD_some, mark_unmark al s l hfree]

/-- A nonzero result of `alist_find_free` is the start of a free gap of the
requested length inside `[2, volsize+1)`. -/
theorem alist_find_free_spec (cfg : VolCfg) (al : AllocMap) (l c : Nat)
    (h : alist_find_free cfg al l = c) (h0 : c ≠ 0) :
    2 ≤ c ∧ c + l ≤ cfg.volsize + 1 ∧ rangeFree al c l = true := by
  unfold alist_find_free at h
  by_cases hl : l = 0
  · rw [if_pos hl] at h
    exact absurd h.symm h0
  · rw [if_neg hl] at h
    cases hfl : (List.range (cfg.volsize + 2)).filter
        (fun s => decide (2 ≤ s) && decide (s + l ≤ cfg.volsize + 1) && rangeFree al s l) with
    | nil => rw [hfl] at h; exact absurd h.symm h0
    | cons a t =>
      rw [hfl] at h
      simp only [List.headD_cons] at h
      have ha : a ∈ (List.range (cfg.volsize + 2)).filter
          (fun s => decide (2 ≤ s) && decide (s + l ≤ cfg.volsize + 1) && rangeFree al s l) := by
        rw [hfl]; exact List.mem_cons_self a t
      obtain ⟨-, hp⟩ := List.mem_filter.mp ha
      simp only [Bool.and_eq_true, decide_eq_true_eq] at hp
      subst h
      exact ⟨hp.1.1, hp.1.2, hp.2⟩

/-- Claim C4 (amended): `actn_addfile` on a zero-byte regular file fails
with the no-space error and leaves the volume state unchanged, whatever the
external fate: `csize = 0`, `find_free(0)` returns `0`, and the
`cchk == 0` check rejects it before anything is reserved or created; in
particular no entry exists to export. -/
theorem c4_addfile_empty (cfg : VolCfg) (st : VolState) (fhash : Nat) (fate : AddFate) :
    actn_addfile cfg st 0 fhash fate = (-1, st) := by
  unfold actn_addfile
  by_cases hf : fate = .earlyFail
  · rw [if_pos hf]
  · rw [if_neg hf]
    have h1 : DIV_ROUND_UP 0 cfg.chunksize = 0 := by
      unfold DIV_ROUND_UP
      rcases Nat.eq_zero_or_pos cfg.chunksize with h | h
      · rw [h]
      · exact Nat.div_eq_of_lt (by omega)
    have h2 : alist_find_free cfg st.alloc 0 = 0 := by
      unfold alist_find_free
      rw [if_pos rfl]
    simp only [h1, h2]
    rw [if_pos (Or.inl trivial)]

/-- Claim C6: when `actn_addfile` fails after reserving the container but
before the hash-table entry is committed — a duplicate digest found by
`lookup`, or a saturated bucket reported by `addentry` — the reserved range
`[cchk, cchk+csize)` is unregistered by the `goto` cleanup chain, `-1` is
propagated, and the whole state (in particular the allocator) equals the
state before the add. -/
theorem c6_dup_or_full_cleanup (cfg : VolCfg) (st : VolState) (fsize fhash cchk : Nat)
    (hf : alist_find_free cfg st.alloc (DIV_ROUND_UP fsize cfg.chunksize) = cchk)
    (h0 : cchk ≠ 0) (hv : cchk < cfg.volsize)
    (hdup : btable_lookup cfg st.entries fhash ≠ none ∨
            btable_addentry cfg st.entries fhash = none) :
    actn_addfile cfg st fsize fhash AddFate.ok = (-1, st) := by
  obtain ⟨h2, hb, hfree⟩ := alist_find_free_spec cfg st.alloc _ cchk hf h0
  have hrel := release_of_register cfg st.alloc cchk (DIV_ROUND_UP fsize cfg.chunksize) hfree hb
  unfold actn_addfile
  simp only [hf, hrel, hashLoopAbort]
  rw [if_neg (by simp : ¬ (AddFate.ok = AddFate.earlyFail))]
  rw [if_neg (by omega : ¬ (cchk = 0 ∨ cfg.volsize ≤ cchk))]
  rw [if_neg (by simp : ¬ (AddFate.ok = AddFate.tmpAllocFail ∨ AddFate.ok = AddFate.hashInitFail ∨
        AddFate.ok = AddFate.seek1Fail))]
  rcases hdup with hlk | hadd
  · cases hcase : btable_lookup cfg st.entries fhash with
    | none => exact absurd hcase hlk
    | some e => simp only [hcase]
  · cases hcase : btable_lookup cfg st.entries fhash with
    | none => simp only [hcase, hadd]
    | some e => simp only [hcase]

/-- Claim C6 (witness): on the example volume already holding digest 5,
adding digest 5 again is a duplicate; the add fails with `-1` and the
state (allocator included) is exactly the pre-add state. -/
theorem c6_dup_or_full_cleanup_witness :
    btable_lookup exCfg c8_st1.entries 5 ≠ none ∧
    actn_addfile exCfg c8_st1 1 5 AddFate.ok = (-1, c8_st1) :=
  ⟨by decide,
   c6_dup_or_full_cleanup exCfg c8_st1 1 5 4 (by decide) (by decide) (by decide)
     (Or.inl (by decide))⟩

/-- Claim C5 (amended): if the cancel flag is observed during the hashing
loop, `actn_addfile` returns the cancel code `-2` and the allocator, the
bucket table and the chunk cache are all exactly as before the add (the
container reservation is released).  If the cancel flag is observed during
the content-copy loop — which runs after the hash-table entry was
populated — the add still returns `-2` and the allocator is restored, but
the committed hash-table entry and the MODIFIED bit of its chunk remain. -/
theorem c5_cancel_paths (cfg : VolCfg) (st : VolState) (fsize fhash c k cchk slot : Nat)
    (hf : alist_find_free cfg st.alloc (DIV_ROUND_UP fsize cfg.chunksize) = cchk)
    (h0 : cchk ≠ 0) (hv : cchk < cfg.volsize)
    (hc : c < DIV_ROUND_UP fsize cfg.chunksize)
    (hk : k < DIV_ROUND_UP fsize cfg.chunksize)
    (hlk : btable_lookup cfg st.entries fhash = none)
    (had : btable_addentry cfg st.entries fhash = some slot) :
    actn_addfile cfg st fsize fhash (AddFate.hashCancel c) = (-2, st) ∧
    actn_addfile cfg st fsize fhash (AddFate.copyCancel k) =
      (-2, { st with
             entries := st.entries.set slot
               { hash := fhash, chunk := cchk, offset := 0, len := fsize, flags := 0 },
             cstate := st.cstate.set (slot / cfg.htable_nb_entries_per_chunk) true }) := by
  obtain ⟨h2, hb, hfree⟩ := alist_find_free_spec cfg st.alloc _ cchk hf h0
  have hrel := release_of_register cfg st.alloc cchk (DIV_ROUND_UP fsize cfg.chunksize) hfree hb
  constructor
  · unfold actn_addfile
    simp only [hf, hrel, hashLoopAbort]
    rw [if_neg (by simp : ¬ (AddFate.hashCancel c = AddFate.earlyFail))]
    rw [if_neg (by omega : ¬ (cchk = 0 ∨ cfg.volsize ≤ cchk))]
    rw [if_neg (by simp : ¬ (AddFate.hashCancel c = AddFate.tmpAllocFail ∨
          AddFate.hashCancel c = AddFate.hashInitFail ∨ AddFate.hashCancel c = AddFate.seek1Fail))]
    rw [if_pos hc]
  · unfold actn_addfile
    simp only [hf, hrel, hashLoopAbort, copyLoopAbort, hlk, had]
    rw [if_neg (by simp : ¬ (AddFate.copyCancel k = AddFate.earlyFail))]
    rw [if_neg (by omega : ¬ (cchk = 0 ∨ cfg.volsize ≤ cchk))]
    rw [if_neg (by simp : ¬ (AddFate.copyCancel k = AddFate.tmpAllocFail ∨
          AddFate.copyCancel k = AddFate.hashInitFail ∨ AddFate.copyCancel k = AddFate.seek1Fail))]
    rw [if_neg (by simp : ¬ (AddFate.copyCancel k = AddFate.seek2Fail))]
    rw [if_pos hk]

/-- Claim C5 (witness): the amended cancel behaviour at a concrete input on
the example volume: a hash-phase cancel leaves the state unchanged and a
copy-phase cancel leaves the committed entry and MODIFIED bit in place. -/
theorem c5_cancel_paths_witness :
    (0 < DIV_ROUND_UP 1 exCfg.chunksize ∧
     btable_lookup exCfg exState.entries 5 = none) ∧
    actn_addfile exCfg exState 1 5 (AddFate.hashCancel 0) = (-2, exState) :=
  ⟨⟨by decide, by decide⟩,
   (c5_cancel_paths exCfg exState 1 5 0 0 3 0 (by decide) (by decide) (by decide)
     (by decide) (by decide) (by decide) (by decide)).1⟩

/-- Claim C10: `actn_rmfile` is atomic on failure: whenever it returns an
error — malformed digest string, digest not found, or a failing
`shfs_alist_unregister` — the bucket table, the on-disk hash-table entry,
the chunk-cache MODIFIED bits, the allocator and the default reference are
all unchanged; the entry is cleared and its chunk marked MODIFIED only
after the unregister succeeded. -/
theorem c10_rm_atomic (cfg : VolCfg) (st : VolState) (h : Option Nat)
    (hret : (actn_rmfile cfg st h).1 < 0) :
    (actn_rmfile cfg st h).2 = st := by
  unfold actn_rmfile at hret ⊢
  cases h with
  | none => rfl
  | some hv =>
    cases hlk : btable_lookup cfg st.entries hv with
    | none => simp only [hlk]
    | some slot =>
      simp only [hlk] at hret ⊢
      cases hun : alist_unregister cfg st.alloc (st.entries.getD slot default).chunk
          (DIV_ROUND_UP ((st.entries.getD slot default).len +
            (st.entries.getD slot default).offset) cfg.chunksize) with
      | none => simp only [hun]
      | some al1 =>
        rw [hun] at hret
        exact absurd hret (by norm_num)

/-- Claim C10 (witness): removing with a malformed digest string on the
example volume returns an error and leaves the state unchanged. -/
theorem c10_rm_atomic_witness :
    (actn_rmfile exCfg exState none).1 < 0 ∧
    (actn_rmfile exCfg exState none).2 = exState :=
  ⟨by decide, c10_rm_atomic exCfg exState none (by decide)⟩

theorem driverLoop_failed_none (rets : List Int) :
    (driverLoop rets none).1 = rets.countP fun r => decide (r < 0) := by
  induction rets with
  | nil => rfl
  | cons r rs ih => simp [driverLoop, ih, List.countP_cons]

theorem driverLoop_exec_none (rets : List Int) :
    (driverLoop rets none).2 = rets.length := by
  induction rets with
  | nil => rfl
  | cons r rs ih => simp [driverLoop, ih]

theorem driverLoop_exec_some (rets : List Int) :
    ∀ k, (driverLoop rets (some k)).2 = min k rets.length := by
  induction rets with
  | nil => intro k; simp [driverLoop]
  | cons r rs ih =>
    intro k
    cases k with
    | zero => simp [driverLoop]
    | succ k => simp only [driverLoop, ih k, List.length_cons]; omega

/-- Claim C9: the driver loop of `main` executes the token list in order,
counts per-token failures and keeps executing after a failure (with no
cancel, the number of executed tokens is the full list length), a raised
cancel flag short-circuits the remaining tokens (`min k length` tokens
execute when the flag is first observed at iteration `k`) and forces the
distinguished cancel code `-2`; the process result is success (`0`) iff the
cancel flag was never raised and every executed token's action returned
success. -/
theorem c9_driver (rets : List Int) (c : Option Nat) :
    (driverRet rets c = 0 ↔ (c = none ∧ rets.all (fun r => decide (0 ≤ r)) = true)) ∧
    (∀ k, driverRet rets (some k) = -2) ∧
    (driverLoop rets none).1 = (rets.countP fun r => decide (r < 0)) ∧
    (driverLoop rets none).2 = rets.length ∧
    (∀ k, (driverLoop rets (some k)).2 = min k rets.length) := by
  refine ⟨?_, fun k => by simp [driverRet], driverLoop_failed_none rets,
    driverLoop_exec_none rets, fun k => driverLoop_exec_some rets k⟩
  cases c with
  | some k => simp [driverRet]
  | none =>
    rw [driverRet]
    simp only [Option.isSome_none, Bool.false_eq_true, if_false, driverLoop_failed_none]
    by_cases hz : (rets.countP fun r => decide (r < 0)) = 0
    · rw [if_neg (by simp [hz])]
      simp only [eq_self_iff_true, true_and]
      constructor
      · intro _
        rw [List.all_eq_true]
        intro r hr
        have hnr := List.countP_eq_zero.mp hz r hr
        simp only [decide_eq_true_eq] at hnr ⊢
        omega
      · intro _
        trivial
    · rw [if_pos hz]
      constructor
      · intro habs
        exact absurd habs (by norm_num)
      · rintro ⟨-, hall⟩
        exfalso
        apply hz
        rw [List.countP_eq_zero]
        intro a ha
        have := List.all_eq_true.mp hall a ha
        simp only [decide_eq_true_eq] at this ⊢
        omega

theorem addfile_chunks_nil (cs : Nat) : addfile_chunks cs [] = [] := by
  unfold addfile_chunks
  rfl

theorem addfile_chunks_step (cs : Nat) (data : List Nat) (h0 : cs ≠ 0) (h1 : cs < data.length) :
    addfile_chunks cs data = data.take cs :: addfile_chunks cs (data.drop cs) := by
  have hne : data.isEmpty = false := by
    cases data with
    | nil => simp at h1
    | cons a l => rfl
  rw [addfile_chunks.eq_def]
  simp only [hne, Bool.false_eq_true, if_false]
  rw [dif_neg h0, dif_pos h1]

theorem addfile_chunks_last (cs : Nat) (data : List Nat) (hne : data ≠ []) (h0 : cs ≠ 0)
    (h1 : ¬ cs < data.length) :
    addfile_chunks cs data = [data ++ List.replicate (cs - data.length) 0] := by
  have hne2 : data.isEmpty = false := by
    cases data with
    | nil => exact absurd rfl hne
    | cons a l => rfl
  rw [addfile_chunks.eq_def]
  simp only [hne2, Bool.false_eq_true, if_false]
  rw [dif_neg h0, dif_neg h1]

theorem catfile_bytes_zero (cs : Nat) (chunks : List (List Nat)) (off : Nat) :
    catfile_bytes cs chunks off 0 = [] := by
  cases chunks <;> rfl

theorem catfile_bytes_cons (cs : Nat) (b : List Nat) (bs : List (List Nat)) (off left : Nat)
    (h : left ≠ 0) :
    catfile_bytes cs (b :: bs) off left =
      (b.drop off).take (min (cs - off) left) ++
        catfile_bytes cs bs 0 (left - min (cs - off) left) := by
  cases left with
  | zero => exact absurd rfl h
  | succ l => rfl

theorem addfile_chunks_spec (cs : Nat) (hcs : 0 < cs) :
    ∀ (n : Nat) (data : List Nat), data.length ≤ n →
      (∀ b ∈ addfile_chunks cs data, b.length = cs) ∧
      catfile_bytes cs (addfile_chunks cs data) 0 data.length = data := by
  intro n
  induction n with
  | zero =>
    intro data hd
    have hdata : data = [] := List.eq_nil_of_length_eq_zero (Nat.le_zero.mp hd)
    subst hdata
    exact ⟨by simp [addfile_chunks_nil], by rw [addfile_chunks_nil]; rfl⟩
  | succ n ih =>
    intro data hd
    rcases eq_or_ne data [] with hdata | hdata
    · subst hdata
      exact ⟨by simp [addfile_chunks_nil], by rw [addfile_chunks_nil]; rfl⟩
    · have hlen0 : 0 < data.length := List.length_pos.mpr hdata
      by_cases hlt : cs < data.length
      · rw [addfile_chunks_step cs data (by omega) hlt]
        have hdrop : (data.drop cs).length = data.length - cs := by simp
        have ihd := ih (data.drop cs) (by rw [hdrop]; omega)
        rw [hdrop] at ihd
        constructor
        · intro b hb
          rcases List.mem_cons.mp hb with hb | hb
          · subst hb
            rw [List.length_take]
            omega
          · exact ihd.1 b hb
        · rw [catfile_bytes_cons cs _ _ 0 data.length (by omega)]
          have hmin : min (cs - 0) data.length = cs := by omega
          rw [hmin]
          simp only [List.drop_zero, List.take_take, Nat.min_self]
          rw [ihd.2]
          exact List.take_append_drop cs data
      · rw [addfile_chunks_last cs data hdata (by omega) hlt]
        constructor
        · intro b hb
          rw [List.mem_singleton] at hb
          subst hb
          rw [List.length_append, List.length_replicate]
          omega
        · rw [catfile_bytes_cons cs _ [] 0 data.length (by omega)]
          have hmin : min (cs - 0) data.length = data.length := by omega
          rw [hmin]
          simp only [List.drop_zero, Nat.sub_self]
          rw [catfile_bytes_zero, List.append_nil]
          have := List.take_left data (List.replicate (cs - data.length) (0 : Nat))
          exact this

/-- Claim C2: for every file content added by `actn_addfile` and later read
back by `actn_catfile`, the read-out reproduces the content byte-for-byte
and emits exactly `len = filesize` bytes, although the final chunk written
by the copy loop was zero-padded to `chunksize` on disk: every chunk image
written has length `chunksize`, and reading the written chunks back with
`offset = 0` and `left = len` (the entry fields set by add) returns the
original bytes. -/
theorem c2_add_cat_roundtrip (chunksize : Nat) (data : List Nat) (h : 0 < chunksize) :
    (∀ b ∈ addfile_chunks chunksize data, b.length = chunksize) ∧
    catfile_bytes chunksize (addfile_chunks chunksize data) 0 data.length = data :=
  addfile_chunks_spec chunksize h data.length data le_rfl

/-- Claim C2 (witness): a 5-byte file with `chunksize = 4` is stored as two
chunks, the second zero-padded, and read back exactly. -/
theorem c2_add_cat_roundtrip_witness :
    0 < 4 ∧
    ((∀ b ∈ addfile_chunks 4 [1, 2, 3, 4, 5], b.length = 4) ∧
     catfile_bytes 4 (addfile_chunks 4 [1, 2, 3, 4, 5]) 0 [1, 2, 3, 4, 5].length =
       [1, 2, 3, 4, 5]) :=
  ⟨by decide, c2_add_cat_roundtrip 4 [1, 2, 3, 4, 5] (by decide)⟩

theorem umount_writes_succ (n : Nat) (useBak : Bool) (cs : List Bool) :
    umount_writes (n + 1) useBak cs =
      umount_writes n useBak cs ++ flushChunk useBak (cs.getD n false) n := by
  unfold umount_writes
  rw [List.range_succ, List.map_append, List.flatten_append]
  simp

theorem umount_writes_prefix (useBak : Bool) (cs : List Bool) (m : Nat) :
    ∀ n, m ≤ n → ∃ t, umount_writes n useBak cs = umount_writes m useBak cs ++ t := by
  intro n
  induction n with
  | zero =>
    intro h
    have hm : m = 0 := Nat.le_zero.mp h
    subst hm
    exact ⟨[], by simp⟩
  | succ n ih =>
    intro h
    by_cases hm : m = n + 1
    · subst hm
      exact ⟨[], by simp⟩
    · obtain ⟨t, ht⟩ := ih (by omega)
      exact ⟨t ++ flushChunk useBak (cs.getD n false) n,
        by rw [umount_writes_succ, ht, List.append_assoc]⟩

theorem mem_flushChunk (useBak m : Bool) (k : Nat) (e : WriteEvt)
    (h : e ∈ flushChunk useBak m k) :
    m = true ∧ (e = WriteEvt.prim k ∨ e = WriteEvt.bak k) := by
  cases m with
  | false => simp [flushChunk] at h
  | true =>
    cases useBak with
    | true =>
      simp [flushChunk] at h
      exact ⟨rfl, h⟩
    | false =>
      simp [flushChunk] at h
      exact ⟨rfl, Or.inl h⟩

theorem mem_umount_writes (n : Nat) (useBak : Bool) (cs : List Bool) (e : WriteEvt)
    (h : e ∈ umount_writes n useBak cs) :
    ∃ k, k < n ∧ cs.getD k false = true ∧ (e = WriteEvt.prim k ∨ e = WriteEvt.bak k) := by
  unfold umount_writes at h
  rw [List.mem_flatten] at h
  obtain ⟨l, hl, hel⟩ := h
  rw [List.mem_map] at hl
  obtain ⟨k, hk, rfl⟩ := hl
  have hm := mem_flushChunk useBak _ k e hel
  exact ⟨k, List.mem_range.mp hk, hm.1, hm.2⟩

/-- Claim C7 (amended): the write-back order actually implemented by
`umount_shfs`: a hash-table chunk whose MODIFIED bit is clear is never
written to either region, and the chunks are flushed in ascending index
order with the primary write of a chunk immediately followed by its backup
write — hence the primary write of chunk `i` precedes the backup write of
chunk `j` exactly for the pairs `i ≤ j` (not for all pairs, as the spec's
all-primary-then-all-backup ordering would require). -/
theorem c7_flush_order (n : Nat) (useBak : Bool) (cs : List Bool) :
    (∀ i, cs.getD i false = false →
       ∀ e ∈ umount_writes n useBak cs, e ≠ WriteEvt.prim i ∧ e ≠ WriteEvt.bak i) ∧
    (∀ i j, i ≤ j → j < n → cs.getD i false = true → cs.getD j false = true →
       ∃ l1 l2 l3, umount_writes n true cs =
         l1 ++ WriteEvt.prim i :: l2 ++ WriteEvt.bak j :: l3) := by
  constructor
  · intro i hfalse e he
    obtain ⟨k, -, hktrue, hke⟩ := mem_umount_writes n useBak cs e he
    constructor <;> rintro rfl <;> rcases hke with hke | hke <;> simp_all
  · intro i j hij hjn hi hj
    rcases eq_or_lt_of_le hij with rfl | hlt
    · obtain ⟨t, ht⟩ := umount_writes_prefix true cs (i + 1) n (by omega)
      rw [ht, umount_writes_succ, hi]
      refine ⟨umount_writes i true cs, [], t, ?_⟩
      simp [flushChunk]
    · obtain ⟨t3, ht3⟩ := umount_writes_prefix true cs (j + 1) n (by omega)
      obtain ⟨t2, ht2⟩ := umount_writes_prefix true cs (i + 1) j (by omega)
      rw [ht3, umount_writes_succ, ht2, umount_writes_succ, hi, hj]
      refine ⟨umount_writes i true cs, WriteEvt.bak i :: (t2 ++ [WriteEvt.prim j]), t3, ?_⟩
      simp [flushChunk]

/-- Claim C7 (witness): the amended ordering at a concrete input: with both
chunks of a two-chunk cache MODIFIED, chunk 5 (clean, out of range) is never
written, and the primary write of chunk 0 precedes the backup write of
chunk 1 in the emitted sequence. -/
theorem c7_flush_order_witness :
    ([true, true].getD 5 false = false ∧
     ∀ e ∈ umount_writes 2 true [true, true], e ≠ WriteEvt.prim 5 ∧ e ≠ WriteEvt.bak 5) ∧
    ((0 : Nat) ≤ 1 ∧
     ∃ l1 l2 l3, umount_writes 2 true [true, true] =
       l1 ++ WriteEvt.prim 0 :: l2 ++ WriteEvt.bak 1 :: l3) :=
  ⟨⟨by decide, (c7_flush_order 2 true [true, true]).1 5 (by decide)⟩,
   ⟨by decide,
    (c7_flush_order 2 true [true, true]).2 0 1 (by decide) (by decide) (by decide) (by decide)⟩⟩

/-- Claim C4 (amended, witness): the zero-byte add fails identically under
an arbitrary fate on the example volume. -/
theorem c4_addfile_empty_witness :
    actn_addfile exCfg exState 0 5 AddFate.seek1Fail = (-1, exState) :=
  c4_addfile_empty exCfg exState 5 AddFate.seek1Fail

/-- Claim C9 (witness): the driver behaviour at a concrete token list: a
cancel observed at iteration 1 yields the cancel code, and without cancel
both tokens execute. -/
theorem c9_driver_witness :
    driverRet [0, -1] (some 1) = -2 ∧ (driverLoop [0, -1] none).2 = [0, -1].length :=
  ⟨(c9_driver [0, -1] (some 1)).2.1 1, (c9_driver [0, -1] none).2.2.2.1⟩
